import Mathlib

/-!
# Verification of the seguimiento data pipeline

A shallow embedding, in Lean 4, of the data-normalization and
timeline-item-construction pipeline of the MurciaLab/seguimiento repository:

* `DataFetcher.parseDate`, `DataFetcher.transformToTimelineFormat`,
  `DataFetcher.fetchProjectList`'s column validation (src/js/components/DataFetcher.js);
* `MediaTypeHandler.detectMediaType` and its helpers (src/js/components/MediaTypeHandler.js);
* `CardRenderer.createNewsCard` and its helpers (src/js/components/CardRenderer.js);
* the project-selection state machine of `TimelineApp` (src/js/app.js).

JavaScript strings are modelled as `List Char`; absent/`undefined` values as
`Option`; thrown exceptions as `Except`; the cooperative event loop of the
controller as explicit phases separated at the single `await` suspension point.
DOM rendering is modelled only through the displayed-content field of the
controller state; `console` logging is not modelled.
-/

set_option maxRecDepth 10000

/-- JavaScript strings, modelled as lists of characters. -/
abbrev JStr := List Char

/-- ASCII whitespace, the only whitespace occurring in the repository's data.
Models the character class trimmed by `String.prototype.trim` and matched by `\s`. -/
def isJsWs (c : Char) : Bool :=
  c == ' ' || c == '\t' || c == '\n' || c == '\r' || c == '\x0c' || c == '\x0b'

/-- `String.prototype.trim`: strip leading and trailing whitespace. -/
def jsTrim (s : JStr) : JStr :=
  ((s.dropWhile isJsWs).reverse.dropWhile isJsWs).reverse

/-- `String.prototype.toLowerCase` (ASCII range, which covers the URLs and
party names the repository handles). -/
def jsToLower (s : JStr) : JStr := s.map Char.toLower

/-- JavaScript truthiness of an optional string: `undefined`, `null` and the
empty string are falsy. `jsOr o d` models `o || d` on string-or-absent values. -/
def jsOr (o : Option JStr) (d : JStr) : JStr :=
  match o with
  | none => d
  | some s => if s.isEmpty then d else s

/-- Substring test (`RegExp.test` with an unanchored literal pattern, or
`String.prototype.includes`). -/
def containsSub (needle : JStr) : JStr → Bool
  | [] => needle.isEmpty
  | c :: rest => needle.isPrefixOf (c :: rest) || containsSub needle rest

/-- Numeric value of a digit string (`parseInt(s, 10)` on an all-digit string). -/
def digitsToNat (s : JStr) : Nat :=
  s.foldl (fun a c => a * 10 + (c.toNat - '0'.toNat)) 0

/-- Match against `/^(\d{1,2})\/(\d{1,2})\/(\d{4})$/`, returning the three
numeric capture groups. -/
def matchDMY (s : JStr) : Option (Nat × Nat × Nat) :=
  let d1 := s.takeWhile Char.isDigit
  let r1 := s.dropWhile Char.isDigit
  if d1.length = 0 || d1.length > 2 then none else
  match r1 with
  | '/' :: r2 =>
    let d2 := r2.takeWhile Char.isDigit
    let r3 := r2.dropWhile Char.isDigit
    if d2.length = 0 || d2.length > 2 then none else
    match r3 with
    | '/' :: r4 =>
      let d3 := r4.takeWhile Char.isDigit
      let r5 := r4.dropWhile Char.isDigit
      if d3.length = 4 && r5.isEmpty then
        some (digitsToNat d1, digitsToNat d2, digitsToNat d3)
      else none
    | _ => none
  | _ => none

/-- Match against `/^(\d{4})-(\d{2})-(\d{2})$/`, returning the three numeric
capture groups. -/
def matchISO (s : JStr) : Option (Nat × Nat × Nat) :=
  let d1 := s.takeWhile Char.isDigit
  let r1 := s.dropWhile Char.isDigit
  if d1.length ≠ 4 then none else
  match r1 with
  | '-' :: r2 =>
    let d2 := r2.takeWhile Char.isDigit
    let r3 := r2.dropWhile Char.isDigit
    if d2.length ≠ 2 then none else
    match r3 with
    | '-' :: r4 =>
      let d3 := r4.takeWhile Char.isDigit
      let r5 := r4.dropWhile Char.isDigit
      if d3.length = 2 && r5.isEmpty then
        some (digitsToNat d1, digitsToNat d2, digitsToNat d3)
      else none
    | _ => none
  | _ => none

/-- Gregorian leap-year rule, as implemented by the JavaScript `Date` object. -/
def isLeapYear (y : Int) : Bool :=
  (y % 4 == 0 && y % 100 != 0) || y % 400 == 0

/-- Days in the month with 0-indexed month number `m0` (0 = January), as JS
`Date` reckons them; months outside 0..11 are never consulted by the guarded
round-trip check below. -/
def daysInMonth0 (y : Int) (m0 : Int) : Int :=
  if m0 == 1 then (if isLeapYear y then 29 else 28)
  else if m0 == 3 || m0 == 5 || m0 == 8 || m0 == 10 then 30
  else 31

/-- The observable round trip of `new Date(year, month, day)` in JavaScript:
`getFullYear() === year && getMonth() === month && getDate() === day` holds
exactly when the month index is in 0..11, the day is in 1..daysInMonth, and
the year is outside 0..99 — the `Date(y, m, d)` constructor maps a year
argument in 0..99 to 1900 + year, so such years can never round-trip. -/
def jsDateRoundTrips (y m0 d : Int) : Bool :=
  !(decide (0 ≤ y) && decide (y ≤ 99)) &&
  decide (0 ≤ m0) && decide (m0 ≤ 11) &&
  decide (1 ≤ d) && decide (d ≤ daysInMonth0 y m0)

/-- The observable components of a JavaScript `Date`: `getFullYear`,
`getMonth` (0-indexed) and `getDate`. -/
structure JSDate where
  year : Int
  month0 : Int
  day : Int
deriving DecidableEq, Repr

/-- Embedding of `DataFetcher.parseDate` (src/js/components/DataFetcher.js,
lines 107-170). `gen` models the engine-defined generic `new Date(string)`
parse used in the final fallback (external to the repository; every claim here
is independent of it). Nesting mirrors the source's control flow: the
`DD/MM/YYYY` branch returns or throws whenever its regex matches; the later
branches run only when it does not. -/
def parseDate (gen : JStr → Option JSDate) (dateString : Option JStr) : Except JStr JSDate :=
  match dateString with
  | none => .error "Invalid or missing date".toList
  | some raw =>
    if raw.isEmpty then .error "Invalid or missing date".toList
    else
      let dateStr := jsTrim raw
      match matchDMY dateStr with
      | some (c1, c2, c3) =>
        let day : Int := c1
        let month : Int := (c2 : Int) - 1
        let year : Int := c3
        if jsDateRoundTrips year month day then .ok ⟨year, month, day⟩
        else .error ("Invalid date: ".toList ++ raw)
      | none =>
        let mmdd : Option JSDate :=
          match matchDMY dateStr with
          | some (c1, c2, c3) =>
            let month : Int := (c1 : Int) - 1
            let day : Int := c2
            let year : Int := c3
            if decide (0 ≤ month) && decide (month ≤ 11) &&
               decide (1 ≤ day) && decide (day ≤ 31) &&
               jsDateRoundTrips year month day
            then some ⟨year, month, day⟩ else none
          | none => none
        match mmdd with
        | some dt => .ok dt
        | none =>
          let iso : Option JSDate :=
            match matchISO dateStr with
            | some (c1, c2, c3) =>
              let year : Int := c1
              let month : Int := (c2 : Int) - 1
              let day : Int := c3
              if jsDateRoundTrips year month day then some ⟨year, month, day⟩ else none
            | none => none
          match iso with
          | some dt => .ok dt
          | none =>
            match gen dateStr with
            | some dt => .ok dt
            | none =>
              .error ("Invalid date format: ".toList ++ raw ++
                ". Expected DD/MM/YYYY, MM/DD/YYYY, YYYY-MM-DD, or standard date format".toList)

/-- A generic-date-parse stub used to instantiate `gen` in concrete
evaluations; none of the claims depend on the generic fallback. -/
def genNone : JStr → Option JSDate := fun _ => none

/-- A slash-separated day/month/year triple denotes a real calendar date:
month in 1..12 and day in 1..(days of that month). This is the spec's
"components form a real calendar date (day ≤ days in that month)". -/
def realCalendarDMY (d m y : Nat) : Bool :=
  decide (1 ≤ m) && decide (m ≤ 12) && decide (1 ≤ d) &&
  decide ((d : Int) ≤ daysInMonth0 (y : Int) ((m : Int) - 1))

/-! ## MediaTypeHandler (src/js/components/MediaTypeHandler.js) -/

/-- The closed set of media-type tags (`MediaTypeHandler.MEDIA_TYPES`). -/
inductive MediaType where
  | twitter
  | news
  | youtube
  | facebook
  | instagram
  | unknown
deriving DecidableEq, Repr

/-- The string value of each media-type constant. -/
def mediaTypeStr : MediaType → JStr
  | .twitter => "twitter".toList
  | .news => "news".toList
  | .youtube => "youtube".toList
  | .facebook => "facebook".toList
  | .instagram => "instagram".toList
  | .unknown => "unknown".toList

/-- `patterns.some(p => p.test(url))` for a list of anchored literal patterns,
each compiled to the finite set of literal prefixes it accepts. -/
def startsWithAny (ps : List JStr) (s : JStr) : Bool :=
  ps.any (fun p => p.isPrefixOf s)

/-- `MediaTypeHandler.isTwitterLink`: the three anchored regexes
`^https?://(www.)?(twitter.com|x.com)/`, `^https?://mobile.(twitter.com|x.com)/`
and `^https?://t.co/`, compiled to their accepted literal prefixes. -/
def isTwitterLink (url : JStr) : Bool :=
  if url.isEmpty then false
  else
    startsWithAny (List.map String.toList
      ["http://twitter.com/", "http://www.twitter.com/",
       "http://x.com/", "http://www.x.com/",
       "https://twitter.com/", "https://www.twitter.com/",
       "https://x.com/", "https://www.x.com/",
       "http://mobile.twitter.com/", "http://mobile.x.com/",
       "https://mobile.twitter.com/", "https://mobile.x.com/",
       "http://t.co/", "https://t.co/"]) url

/-- `MediaTypeHandler.isYouTubeLink`: `^https?://(www.)?(youtube.com|youtu.be)/`
and `^https?://m.youtube.com/`. -/
def isYouTubeLink (url : JStr) : Bool :=
  if url.isEmpty then false
  else
    startsWithAny (List.map String.toList
      ["http://youtube.com/", "http://www.youtube.com/",
       "http://youtu.be/", "http://www.youtu.be/",
       "https://youtube.com/", "https://www.youtube.com/",
       "https://youtu.be/", "https://www.youtu.be/",
       "http://m.youtube.com/", "https://m.youtube.com/"]) url

/-- `MediaTypeHandler.isFacebookLink`: `^https?://(www.)?(facebook.com|fb.com)/`
and `^https?://m.facebook.com/`. -/
def isFacebookLink (url : JStr) : Bool :=
  if url.isEmpty then false
  else
    startsWithAny (List.map String.toList
      ["http://facebook.com/", "http://www.facebook.com/",
       "http://fb.com/", "http://www.fb.com/",
       "https://facebook.com/", "https://www.facebook.com/",
       "https://fb.com/", "https://www.fb.com/",
       "http://m.facebook.com/", "https://m.facebook.com/"]) url

/-- `MediaTypeHandler.isInstagramLink`: `^https?://(www.)?instagram.com/`. -/
def isInstagramLink (url : JStr) : Bool :=
  if url.isEmpty then false
  else
    startsWithAny (List.map String.toList
      ["http://instagram.com/", "http://www.instagram.com/",
       "https://instagram.com/", "https://www.instagram.com/"]) url

/-- The `/^https?:\/\//` test inside `isNewsArticle`. -/
def isHttpUrl (url : JStr) : Bool :=
  "http://".toList.isPrefixOf url || "https://".toList.isPrefixOf url

/-- The unanchored social-platform patterns excluded by `isNewsArticle`,
each alternation split into its literal substrings. -/
def socialMediaSubstrings : List JStr :=
  List.map String.toList
    ["twitter.com", "x.com", "facebook.com", "fb.com", "instagram.com",
     "youtube.com", "youtu.be", "linkedin.com", "tiktok.com", "snapchat.com"]

/-- `socialMediaPatterns.some(pattern => pattern.test(url))`. -/
def hasSocialDomain (url : JStr) : Bool :=
  socialMediaSubstrings.any (fun p => containsSub p url)

/-- `MediaTypeHandler.isNewsArticle` (lines 79-102): any HTTP(S) URL not
matching a social-platform pattern. -/
def isNewsArticle (url : JStr) : Bool :=
  if url.isEmpty then false
  else isHttpUrl url && !hasSocialDomain url

/-- `MediaTypeHandler.detectMediaType` (lines 21-55). `none` models a missing
or non-string argument; the empty string is falsy like them. -/
def detectMediaType (url : Option JStr) : MediaType :=
  match url with
  | none => .unknown
  | some u =>
    if u.isEmpty then .unknown
    else
      let normalizedUrl := jsTrim (jsToLower u)
      if isTwitterLink normalizedUrl then .twitter
      else if isYouTubeLink normalizedUrl then .youtube
      else if isFacebookLink normalizedUrl then .facebook
      else if isInstagramLink normalizedUrl then .instagram
      else if isNewsArticle normalizedUrl then .news
      else .unknown

/-! ## Shared helpers: i18n lookup and HTML escaping -/

/-- Modelled from the spec: the i18n lookup `t` (the locale file
`js/locales/es.json` is not among the sources; the spec excludes
internationalization string lookup as an external collaborator). Modelled as
tagging the key, which keeps distinct keys distinct and distinct from any
spreadsheet cell text used in the claims. -/
def tr (key : String) : JStr := ("§" ++ key).toList

/-- `escapeHtml` as implemented in both CardRenderer and DataFetcher:
`div.textContent = text; return div.innerHTML`. HTML text-node serialization
escapes exactly `&`, `<`, `>` and U+00A0. -/
def escapeHtml (s : JStr) : JStr :=
  s.flatMap (fun c =>
    if c == '&' then "&amp;".toList
    else if c == '<' then "&lt;".toList
    else if c == '>' then "&gt;".toList
    else if c.toNat == 160 then "&nbsp;".toList
    else [c])

/-- `.replace(/\n/g, '<br>')`. -/
def newlinesToBr (s : JStr) : JStr :=
  s.flatMap (fun c => if c == '\n' then "<br>".toList else [c])

/-- `.replace(/\s+/g, '-')`: each maximal whitespace run becomes one dash.
The flag records whether the previous character was inside a run. -/
def wsRunsToDashAux : Bool → JStr → JStr
  | _, [] => []
  | inRun, c :: rest =>
    if isJsWs c then
      if inRun then wsRunsToDashAux true rest
      else '-' :: wsRunsToDashAux true rest
    else c :: wsRunsToDashAux false rest

/-- `.replace(/\s+/g, '-')`. -/
def wsRunsToDash (s : JStr) : JStr := wsRunsToDashAux false s

/-- Replace the first occurrence of `needle` (`String.prototype.replace` with a
string pattern). -/
def replaceFirst (needle repl : JStr) : JStr → JStr
  | [] => if needle.isEmpty then repl else []
  | c :: rest =>
    if needle.isPrefixOf (c :: rest) then repl ++ List.drop needle.length (c :: rest)
    else c :: replaceFirst needle repl rest

/-! ## Rows and timeline items -/

/-- One row of a project sheet (a MediaEvent). Each cell is a string or
absent; the spreadsheet collaborator returns row mappings keyed by the header
row, and a missing cell surfaces as an absent key. -/
structure MediaEventRow where
  date_announced : Option JStr
  news_link : Option JStr
  headline : Option JStr
  description : Option JStr
  party : Option JStr
deriving DecidableEq, Repr

/-- A vis-timeline item as built by `DataFetcher.transformToTimelineFormat`.
The source's `type` field is spelled `itemType`. -/
structure TimelineItem where
  id : JStr
  start : JSDate
  content : JStr
  title : JStr
  party : Option JStr
  group : JStr
  className : JStr
  itemType : JStr
deriving DecidableEq, Repr

/-- The synthetic item id `event_${index}`. -/
def eventId (i : Nat) : JStr := "event_".toList ++ (toString i).toList

/-- `DataFetcher.createEventContent` (lines 172-206). -/
def createEventContent (event : MediaEventRow) : JStr :=
  let headline := jsOr event.headline (tr "noHeadlineAvailable")
  let description := jsOr event.description (tr "noDescriptionAvailable")
  let party := jsOr event.party "Unknown".toList
  let newsLink := jsOr event.news_link "#".toList
  let partyClass :=
    if party.isEmpty then "party-other".toList
    else "party-".toList ++ wsRunsToDash (jsToLower party)
  let truncatedDescription :=
    if description.length > 160 then jsTrim (description.take 160) ++ "...".toList
    else description
  let eventDate := jsOr event.date_announced "No date".toList
  "\n      <div class=\"timeline-card-compact ".toList ++ partyClass ++
  "\" style=\"background-color: white; padding: 8px 10px;\">\n        <div style=\"margin-bottom: 8px; color: #2d3748; font-size: 13px; font-weight: bold;\">\n          <strong>".toList ++
  escapeHtml headline ++
  "</strong>\n        </div>\n        <div style=\"margin-bottom: 8px; color: #718096; font-size: 10px; font-weight: 500;\">\n          <em>".toList ++
  escapeHtml eventDate ++
  "</em>\n        </div>\n        <div style=\"margin-bottom: 15px; color: #4a5568; font-size: 11px; line-height: 1.4;\">\n          ".toList ++
  escapeHtml truncatedDescription ++
  "\n        </div>\n        <div style=\"text-align: right; padding-top: 8px;\">\n          <a href=\"".toList ++
  escapeHtml newsLink ++
  "\" target=\"_blank\">üì∞</a>\n        </div>\n      </div>\n    ".toList

/-- The body of the arrow function inside `transformToTimelineFormat`'s `map`:
builds a timeline item, or `none` when `parseDate` throws (the `catch` branch
returns `null`). `createEventContent` and the remaining fields cannot throw on
string-or-absent cells, so the date is the only failure source. -/
def transformRow (gen : JStr → Option JSDate) (index : Nat) (event : MediaEventRow) :
    Option TimelineItem :=
  match parseDate gen event.date_announced with
  | .error _ => none
  | .ok parsedDate =>
    some
      { id := eventId index
        start := parsedDate
        content := createEventContent event
        title := jsOr event.headline (tr "mediaEvent")
        party := event.party
        group := jsOr event.party "Unknown".toList
        className := "party-".toList ++ wsRunsToDash (jsToLower (jsOr event.party "unknown".toList))
        itemType := "box".toList }

/-- `DataFetcher.transformToTimelineFormat` (lines 83-105): map each row with
its index, then drop the `null` results. -/
def transformToTimelineFormat (gen : JStr → Option JSDate) (rawData : List MediaEventRow) :
    List TimelineItem :=
  (rawData.enum.map (fun p => transformRow gen p.1 p.2)).filterMap id

/-! ## Directory-sheet column validation (DataFetcher.fetchProjectList) -/

/-- A raw row mapping: header-column keys paired with cell values. -/
abbrev Row := List (JStr × JStr)

/-- The `col in firstProject` test. -/
def rowHasKey (r : Row) (k : JStr) : Bool := r.any (fun kv => kv.1 == k)

/-- The required directory-sheet columns. -/
def requiredProjectColumns : List JStr :=
  List.map String.toList ["project_id", "project_name", "category"]

/-- `missingColumns.join(', ')`. -/
def joinComma : List JStr → JStr
  | [] => []
  | [x] => x
  | x :: y :: rest => x ++ ", ".toList ++ joinComma (y :: rest)

/-- The schema failure thrown by `fetchProjectList`: the missing required
columns and the thrown message naming them. -/
structure SchemaError where
  missing : List JStr
  message : JStr
deriving DecidableEq, Repr

/-- The column-validation stage of `DataFetcher.fetchProjectList`
(lines 21-38), applied to the row list resolved by the external spreadsheet
collaborator: on a non-empty list, the required columns absent from the first
row are collected and, when any exist, the call throws before returning any
project row. -/
def validateProjectListColumns (projects : List Row) : Except SchemaError (List Row) :=
  match projects with
  | [] => .ok []
  | firstProject :: _ =>
    let missingColumns := requiredProjectColumns.filter (fun col => !rowHasKey firstProject col)
    if missingColumns.isEmpty then .ok projects
    else
      .error
        { missing := missingColumns
          message := "Missing required columns in main sheet: ".toList ++ joinComma missingColumns }

/-! ## CardRenderer (src/js/components/CardRenderer.js) -/

/-- Modelled from the spec: `new URL(link).hostname` — the WHATWG URL parser is
a platform collaborator; modelled for the http(s) URL shapes the spreadsheet
data produces, and failing (the constructor throws) on anything else. -/
def urlHostname (link : JStr) : Option JStr :=
  let rest :=
    if "https://".toList.isPrefixOf link then some (link.drop 8)
    else if "http://".toList.isPrefixOf link then some (link.drop 7)
    else none
  match rest with
  | none => none
  | some r =>
    let h := r.takeWhile (fun c => !(c == '/' || c == '?' || c == '#' || c == ':'))
    if h.isEmpty then none else some h

/-- `CardRenderer.processHeadline` (lines 88-107). -/
def processHeadline (headline link : Option JStr) : JStr :=
  let fromLink : JStr :=
    match link with
    | some l =>
      if l.isEmpty then tr "mediaEvent"
      else
        match urlHostname l with
        | some host => "Media from ".toList ++ replaceFirst "www.".toList [] host
        | none => tr "mediaEvent"
    | none => tr "mediaEvent"
  match headline with
  | some h => if (jsTrim h).isEmpty then fromLink else jsTrim h
  | none => fromLink

/-- `CardRenderer.processDescription` (lines 115-128); `headline` is the raw
headline cell. -/
def processDescription (description headline : Option JStr) : JStr :=
  let fallback : JStr :=
    match headline with
    | some h =>
      if !h.isEmpty && !(h == tr "mediaEvent") && !(h == tr "noHeadlineAvailable") then
        tr "noDescriptionAvailable"
      else []
    | none => []
  match description with
  | some d => if (jsTrim d).isEmpty then fallback else jsTrim d
  | none => fallback

/-- `CardRenderer.processLink` (lines 135-159). -/
def processLink (link : Option JStr) : JStr :=
  match link with
  | none => []
  | some l =>
    if l.isEmpty then []
    else
      let trimmedLink := jsTrim l
      if trimmedLink.isEmpty then []
      else if "http://".toList.isPrefixOf trimmedLink ||
              "https://".toList.isPrefixOf trimmedLink then trimmedLink
      else if containsSub ".".toList trimmedLink &&
              !(containsSub " ".toList trimmedLink) then "https://".toList ++ trimmedLink
      else []

/-- `CardRenderer.processParty` (lines 166-173). -/
def processParty (party : Option JStr) : JStr :=
  match party with
  | none => []
  | some p => if p.isEmpty then [] else jsTrim p

/-- `CardRenderer.processDate` (lines 180-187). -/
def processDate (date : Option JStr) : JStr :=
  match date with
  | none => []
  | some d => if d.isEmpty then [] else jsTrim d

/-- `CardRenderer.hasMinimalContent` (lines 196-203), on processed fields. -/
def hasMinimalContentOf (headline description link : JStr) : Bool :=
  (!headline.isEmpty && !(headline == tr "mediaEvent")) ||
  !description.isEmpty || !link.isEmpty

/-- `CardRenderer.isIncompleteEvent` (lines 210-218). -/
def isIncompleteEvent (newsEvent : MediaEventRow) : Bool :=
  [newsEvent.headline, newsEvent.description, newsEvent.news_link, newsEvent.date_announced].any
    (fun o =>
      match o with
      | none => true
      | some s => (jsTrim s).isEmpty)

/-- The record produced by `CardRenderer.processIncompleteEventData`. -/
structure ProcessedEvent where
  headline : JStr
  description : JStr
  link : JStr
  party : JStr
  date : JStr
  mediaType : MediaType
  minimalContent : Bool
  isIncomplete : Bool
deriving DecidableEq, Repr

/-- `CardRenderer.processIncompleteEventData` (lines 48-80). -/
def processIncompleteEventData (newsEvent : MediaEventRow) : ProcessedEvent :=
  let headline := processHeadline newsEvent.headline newsEvent.news_link
  let description := processDescription newsEvent.description newsEvent.headline
  let link := processLink newsEvent.news_link
  let party := processParty newsEvent.party
  let date := processDate newsEvent.date_announced
  let mediaType := if link.isEmpty then .unknown else detectMediaType (some link)
  { headline := headline
    description := description
    link := link
    party := party
    date := date
    mediaType := mediaType
    minimalContent := hasMinimalContentOf headline description link
    isIncomplete := isIncompleteEvent newsEvent }

/-- `MediaTypeHandler.getMediaEmoji` (the emoji string constants appear in the
source in the encoding shown). -/
def getMediaEmoji : MediaType → JStr
  | .twitter => "üê¶".toList
  | .news => "üì∞".toList
  | .youtube => "üì∫".toList
  | .facebook => "üìò".toList
  | .instagram => "üì∑".toList
  | .unknown => "üîó".toList

/-- `MediaTypeHandler.getMediaTypeLabel`. -/
def getMediaTypeLabel : MediaType → JStr
  | .twitter => tr "twitter"
  | .news => tr "newsArticle"
  | .youtube => tr "youtube"
  | .facebook => tr "facebook"
  | .instagram => tr "instagram"
  | .unknown => tr "link"

/-- `MediaTypeHandler.createMediaIcon`. -/
def createMediaIcon (mediaType : MediaType) : JStr :=
  "<span class=\"media-icon media-icon-".toList ++ mediaTypeStr mediaType ++
  "\" title=\"".toList ++ getMediaTypeLabel mediaType ++ "\">".toList ++
  getMediaEmoji mediaType ++ "</span>".toList

/-- `CardRenderer.createPartyBadgeHTML` (lines 393-400). -/
def createPartyBadgeHTML (party : JStr) : JStr :=
  if party.isEmpty then []
  else
    "<span class=\"party-badge party-".toList ++ wsRunsToDash (jsToLower party) ++
    "\">".toList ++ party ++ "</span>".toList

/-- Month abbreviations of `toLocaleDateString('en-US', { month: 'short' })`. -/
def monthShortNames : List String :=
  ["Jan", "Feb", "Mar", "Apr", "May", "Jun", "Jul", "Aug", "Sep", "Oct", "Nov", "Dec"]

/-- `CardRenderer.formatDate` (lines 358-386): re-parse a `D/M/YYYY` string,
validate it through the same `Date` round trip (the capture groups are strings,
which the `Date` constructor and the loose `==` comparisons coerce to numbers),
and render `en-US` short form; on any failure return the input unchanged. -/
def formatDate (date : JStr) : JStr :=
  if date.isEmpty then []
  else
    match matchDMY date with
    | some (d, m, y) =>
      if jsDateRoundTrips (y : Int) ((m : Int) - 1) (d : Int) then
        ((monthShortNames.getD (m - 1) "") ++ " " ++ toString d ++ ", " ++ toString y).toList
      else date
    | none => date

/-- The last index of `c` in the list, if any (innermost helper for
`String.prototype.lastIndexOf`). -/
def lastPos (c : Char) : JStr → Option Nat
  | [] => none
  | x :: xs =>
    match lastPos c xs with
    | some j => some (j + 1)
    | none => if x == c then some 0 else none

/-- `s.lastIndexOf(c, fromIdx)`: the greatest index `≤ fromIdx` holding `c`,
or `-1`. -/
def jsLastIndexOf (s : JStr) (c : Char) (fromIdx : Nat) : Int :=
  match lastPos c (s.take (fromIdx + 1)) with
  | some i => (i : Int)
  | none => -1

/-- `CardRenderer.formatDescription` (lines 320-351). `maxLength * 0.7` is
`140`. -/
def formatDescription (description : Option JStr) : JStr :=
  match description with
  | none => []
  | some d =>
    let cleanDescription := jsTrim d
    if cleanDescription.isEmpty then []
    else
      let maxLength : Nat := 200
      let truncatedDescription :=
        if cleanDescription.length > maxLength then
          let truncateAt := jsLastIndexOf cleanDescription '.' maxLength
          if truncateAt > 140 then
            cleanDescription.take (truncateAt.toNat + 1)
          else
            let lastSpace := jsLastIndexOf cleanDescription ' ' maxLength
            (cleanDescription.take (if lastSpace > 0 then lastSpace.toNat else maxLength)) ++
              "...".toList
        else cleanDescription
      newlinesToBr (escapeHtml truncatedDescription)

/-- `CardRenderer.formatCardContent` (lines 262-313): the full card template.
Only `formatDescription` passes its text through `escapeHtml`; the headline,
link, date and party are interpolated as they stand. -/
def formatCardContent (eventData : ProcessedEvent) : JStr :=
  let mediaIcon := createMediaIcon eventData.mediaType
  let mediaLabel := getMediaTypeLabel eventData.mediaType
  let partyBadgeHTML :=
    if eventData.party.isEmpty then [] else createPartyBadgeHTML eventData.party
  let formattedDescription := formatDescription (some eventData.description)
  let formattedDate := formatDate eventData.date
  "\n      <div class=\"timeline-card media-card media-".toList ++
  mediaTypeStr eventData.mediaType ++
  "\">\n        <div class=\"card-header\">\n          <div class=\"media-info\">\n            ".toList ++
  mediaIcon ++
  "\n            <span class=\"media-type\">".toList ++ mediaLabel ++
  "</span>\n            ".toList ++
  (if formattedDate.isEmpty then []
   else "<span class=\"card-date\">".toList ++ formattedDate ++ "</span>".toList) ++
  "\n          </div>\n          ".toList ++ partyBadgeHTML ++
  "\n        </div>\n        \n        <div class=\"card-content\">\n          <h4 class=\"card-headline\">\n            ".toList ++
  (if eventData.link.isEmpty then eventData.headline
   else
     "<a href=\"".toList ++ eventData.link ++
     "\" target=\"_blank\" rel=\"noopener noreferrer\" class=\"card-link\">".toList ++
     eventData.headline ++ "</a>".toList) ++
  "\n          </h4>\n          ".toList ++
  (if formattedDescription.isEmpty then []
   else "<p class=\"card-description\">".toList ++ formattedDescription ++ "</p>".toList) ++
  "\n        </div>\n        \n        ".toList ++
  (if eventData.link.isEmpty then []
   else
     "<div class=\"card-footer\">\n          <a href=\"".toList ++ eventData.link ++
     "\" target=\"_blank\" rel=\"noopener noreferrer\" class=\"external-link\">\n            ".toList ++
     tr "readFull" ++ " ".toList ++ jsToLower mediaLabel ++
     " →\n          </a>\n        </div>".toList) ++
  "\n      </div>\n    ".toList

/-- `CardRenderer.createFallbackCard` (lines 229-254). -/
def createFallbackCard (title message date party : JStr) : JStr :=
  let formattedDate := if date.isEmpty then [] else formatDate date
  let partyBadgeHTML := if party.isEmpty then [] else createPartyBadgeHTML party
  "\n      <div class=\"timeline-card media-card incomplete-event\">\n        <div class=\"card-header\">\n          <div class=\"media-info\">\n            <span class=\"media-icon\">⚠️</span>\n            <span class=\"media-type\">".toList ++
  tr "incompleteEvent" ++ "</span>\n            ".toList ++
  (if formattedDate.isEmpty then []
   else "<span class=\"card-date\">".toList ++ formattedDate ++ "</span>".toList) ++
  "\n          </div>\n          ".toList ++ partyBadgeHTML ++
  "\n        </div>\n        \n        <div class=\"card-content\">\n          <h4 class=\"card-headline incomplete\">".toList ++
  title ++
  "</h4>\n          <p class=\"card-description incomplete\">".toList ++ message ++
  "</p>\n        </div>\n        \n        <div class=\"card-footer incomplete\">\n          <span class=\"incomplete-notice\">".toList ++
  tr "incompleteNotice" ++
  "</span>\n        </div>\n      </div>\n    ".toList

/-- `CardRenderer.createNewsCard` (lines 17-40); `none` models a missing or
non-object argument. -/
def createNewsCard (newsEvent : Option MediaEventRow) : JStr :=
  match newsEvent with
  | none =>
    createFallbackCard "Invalid event data".toList
      "Unable to display this media event due to invalid data format.".toList [] []
  | some ev =>
    let processedEvent := processIncompleteEventData ev
    if !processedEvent.minimalContent then
      createFallbackCard "Incomplete Media Event".toList
        "This media event has insufficient information to display properly.".toList
        processedEvent.date processedEvent.party
    else formatCardContent processedEvent

/-! ## Application controller (src/js/app.js, `TimelineApp`) -/

/-- One row of the directory sheet, as consumed by the controller. -/
structure Project where
  project_id : JStr
  project_name : JStr
  category : JStr
  completed_date : Option JStr
deriving DecidableEq, Repr

/-- How the single `await dataFetcher.fetchProjectTimeline(...)` settles:
resolution with the project sheet's rows, or rejection (network failure,
schema error or missing sheet). -/
inductive FetchOutcome where
  | ok (data : List MediaEventRow)
  | err
deriving DecidableEq, Repr

/-- The timeline container's contents, the only DOM state the controller's
correctness contract speaks about. `rendered pid data` is a successful
`timelineRenderer.updateData` call with the rows fetched for project `pid`. -/
inductive Display where
  | initial
  | cleared
  | loading (p : Project)
  | rendered (pid : JStr) (data : List MediaEventRow)
  | placeholder (p : Project) (count : Nat)
  | emptyOf (p : Project)
  | errorState (p : Project)
deriving DecidableEq, Repr

/-- The controller's own fields (`currentProject`, `isLoading`), the timeline
container, and the at-most-one in-flight fetch of the event-loop model. -/
structure AppState where
  currentProject : Option Project
  isLoading : Bool
  display : Display
  pending : Option Project
deriving DecidableEq, Repr

/-- The freshly initialized controller. -/
def initialAppState : AppState :=
  { currentProject := none, isLoading := false, display := .initial, pending := none }

/-- Phase 1 of `TimelineApp.handleProjectSelection` (lines 92-119): the
synchronous prefix up to the `await` on `fetchProjectTimeline`. `hideError`
and `console` calls touch only DOM outside the modelled state. Selecting
`none` clears the timeline; the guard on line 104 returns unchanged when a
load is in flight or the project is already current; otherwise the loading
flag and current project are set, the loading display shown, and the fetch
for the chosen project issued. -/
def selectProject (s : AppState) (choice : Option Project) : AppState :=
  match choice with
  | none => { s with currentProject := none, display := .cleared }
  | some project =>
    if s.isLoading ||
       (match s.currentProject with
        | some cp => cp.project_id == project.project_id
        | none => false) then s
    else
      { currentProject := some project
        isLoading := true
        display := .loading project
        pending := some project }

/-- Phase 2 of `TimelineApp.handleProjectSelection` (lines 119-157): the
continuation run when the awaited fetch settles, including the `catch` and
`finally` blocks. `renderOk` is the boolean result of
`timelineRenderer.updateData`; `updateData` returning `false` shows the
placeholder, empty data shows the empty-timeline message, rejection shows the
error state — and the `finally` block clears `isLoading` on every path. -/
def resolveFetch (s : AppState) (outcome : FetchOutcome) (renderOk : Bool) : AppState :=
  match s.pending with
  | none => s
  | some project =>
    match outcome with
    | .ok data =>
      if data.isEmpty then
        { s with pending := none, isLoading := false, display := .emptyOf project }
      else if renderOk then
        { s with pending := none, isLoading := false,
                 display := .rendered project.project_id data }
      else
        { s with pending := none, isLoading := false,
                 display := .placeholder project data.length }
    | .err =>
      { s with pending := none, isLoading := false, display := .errorState project }

/-! ## Concrete fixtures used by the claim theorems -/

/-- A media event whose headline cell carries markup, as an untrusted
spreadsheet cell may. -/
def evilEvent : MediaEventRow :=
  { date_announced := some "15/03/2023".toList
    news_link := some "https://example.com/a".toList
    headline := some "<script>alert(1)</script>".toList
    description := some "Una noticia.".toList
    party := some "PSOE".toList }

/-- A five-row batch whose third row has the unparseable date `31/02/2020`. -/
def fiveRowBatch : List MediaEventRow :=
  [{ date_announced := some "01/01/2021".toList, news_link := some "https://example.com/1".toList,
     headline := some "Uno".toList, description := some "d1".toList, party := some "PSOE".toList },
   { date_announced := some "02/01/2021".toList, news_link := some "https://example.com/2".toList,
     headline := some "Dos".toList, description := some "d2".toList, party := some "PP".toList },
   { date_announced := some "31/02/2020".toList, news_link := some "https://example.com/3".toList,
     headline := some "Tres".toList, description := some "d3".toList, party := some "Vox".toList },
   { date_announced := some "04/01/2021".toList, news_link := some "https://example.com/4".toList,
     headline := some "Cuatro".toList, description := some "d4".toList,
     party := some "Podemos".toList },
   { date_announced := some "05/01/2021".toList, news_link := some "https://example.com/5".toList,
     headline := some "Cinco".toList, description := some "d5".toList,
     party := some "Ciudadanos".toList }]

/-- The first placeholder project of src/js/app.js. -/
def projectOne : Project :=
  { project_id := "1".toList
    project_name := "Tranvía al Carmen".toList
    category := "Movilidad".toList
    completed_date := some "15/03/2023".toList }

/-- The second placeholder project of src/js/app.js. -/
def projectTwo : Project :=
  { project_id := "2".toList
    project_name := "Parque Central".toList
    category := "Parques y jardines".toList
    completed_date := some "".toList }

/-- A non-empty batch of rows fetched for project "1". -/
def rowsForProjectOne : List MediaEventRow :=
  [{ date_announced := some "01/01/2021".toList, news_link := some "https://example.com/1".toList,
     headline := some "Uno".toList, description := some "d1".toList, party := some "PSOE".toList }]

/-- A directory-sheet first row that lacks the `category` column. -/
def rowMissingCategory : Row :=
  [("project_id".toList, "1".toList), ("project_name".toList, "Tranvía al Carmen".toList)]

/-- A controller state whose active project is project "1" and which is not
loading. -/
def stateWithProjectOne : AppState :=
  { currentProject := some projectOne, isLoading := false,
    display := .rendered projectOne.project_id rowsForProjectOne, pending := none }

/-! ## Supporting lemmas -/

theorem isPrefixOf_append_of_isPrefixOf {n x y : JStr} (h : n.isPrefixOf x = true) :
    n.isPrefixOf (x ++ y) = true := by
  rw [List.isPrefixOf_iff_prefix] at h ⊢
  exact h.trans (List.prefix_append x y)

theorem containsSub_of_isPrefixOf {n s : JStr} (h : n.isPrefixOf s = true) :
    containsSub n s = true := by
  cases s with
  | nil =>
    have : n = [] := by
      cases n with
      | nil => rfl
      | cons a t => simp [List.isPrefixOf] at h
    simp [containsSub, this]
  | cons c rest => simp [containsSub, h]

theorem containsSub_append_left {n x y : JStr} (h : containsSub n x = true) :
    containsSub n (x ++ y) = true := by
  induction x with
  | nil =>
    have hn : n = [] := by
      cases n with
      | nil => rfl
      | cons a t => simp [containsSub] at h
    subst hn
    apply containsSub_of_isPrefixOf
    rw [List.isPrefixOf_iff_prefix]
    exact List.nil_prefix
  | cons a rest ih =>
    simp only [containsSub, Bool.or_eq_true] at h
    rcases h with h | h
    · simpa [containsSub] using Or.inl (isPrefixOf_append_of_isPrefixOf (y := y) h)
    · simp only [List.cons_append, containsSub, Bool.or_eq_true]
      exact Or.inr (ih h)

theorem containsSub_append_right {n x y : JStr} (h : containsSub n y = true) :
    containsSub n (x ++ y) = true := by
  induction x with
  | nil => simpa using h
  | cons a rest ih =>
    simp only [List.cons_append, containsSub, Bool.or_eq_true]
    exact Or.inr ih

theorem containsSub_self {n : JStr} : containsSub n n = true := by
  apply containsSub_of_isPrefixOf
  rw [List.isPrefixOf_iff_prefix]

theorem containsSub_joinComma_of_mem {col : JStr} :
    ∀ {ms : List JStr}, col ∈ ms → containsSub col (joinComma ms) = true := by
  intro ms
  induction ms with
  | nil => intro h; cases h
  | cons x rest ih =>
    intro h
    cases rest with
    | nil =>
      rcases List.mem_singleton.mp h with rfl
      simpa [joinComma] using containsSub_self
    | cons y more =>
      rcases List.mem_cons.mp h with rfl | h2
      · simpa [joinComma] using containsSub_append_left containsSub_self
      · have step : containsSub col (x ++ (", ".toList ++ joinComma (y :: more))) = true :=
          containsSub_append_right (containsSub_append_right (ih h2))
        simpa [joinComma, List.append_assoc] using step

theorem lastPos_get {c : Char} :
    ∀ {l : JStr} {i : Nat}, lastPos c l = some i → l.get? i = some c := by
  intro l
  induction l with
  | nil => intro i h; simp [lastPos] at h
  | cons x xs ih =>
    intro i h
    simp only [lastPos] at h
    cases hx : lastPos c xs with
    | some j =>
      rw [hx] at h
      cases h
      simpa using ih hx
    | none =>
      rw [hx] at h
      by_cases hc : x == c
      · rw [if_pos hc] at h
        cases h
        simpa using (hc : x == c)
      · rw [if_neg hc] at h
        cases h

theorem lastPos_none_aux {c : Char} :
    ∀ {l : JStr}, lastPos c l = none → ∀ k, l.get? k ≠ some c := by
  intro l
  induction l with
  | nil => intro _ k; simp
  | cons x xs ih =>
    intro h k
    simp only [lastPos] at h
    cases hx : lastPos c xs with
    | some j => rw [hx] at h; cases h
    | none =>
      rw [hx] at h
      by_cases hc : x == c
      · rw [if_pos hc] at h; cases h
      · rw [if_neg hc] at h
        cases k with
        | zero =>
          simp only [List.get?_cons_zero]
          intro hbad
          exact hc (by simp [Option.some.injEq] at hbad; simp [hbad])
        | succ k2 =>
          simp only [List.get?_cons_succ]
          exact ih hx k2

theorem lastPos_max {c : Char} :
    ∀ {l : JStr} {i : Nat}, lastPos c l = some i →
      ∀ k, i < k → l.get? k ≠ some c := by
  intro l
  induction l with
  | nil => intro i h; simp [lastPos] at h
  | cons x xs ih =>
    intro i h k hk
    simp only [lastPos] at h
    cases hx : lastPos c xs with
    | some j =>
      rw [hx] at h
      cases h
      cases k with
      | zero => omega
      | succ k2 =>
        simp only [List.get?_cons_succ]
        exact ih hx k2 (by omega)
    | none =>
      rw [hx] at h
      by_cases hc : x == c
      · rw [if_pos hc] at h
        cases h
        cases k with
        | zero => omega
        | succ k2 =>
          simp only [List.get?_cons_succ]
          intro hbad
          exact lastPos_none_aux hx k2 hbad
      · rw [if_neg hc] at h
        cases h

theorem isHttpUrl_of_prefixes {p s : JStr} (hp : isHttpUrl p = true)
    (h : p.isPrefixOf s = true) : isHttpUrl s = true := by
  unfold isHttpUrl at hp ⊢
  rw [List.isPrefixOf_iff_prefix] at h
  rcases Bool.or_eq_true_iff.mp hp with h1 | h1
  · rw [List.isPrefixOf_iff_prefix] at h1
    exact Bool.or_eq_true_iff.mpr (Or.inl ((List.isPrefixOf_iff_prefix).mpr (h1.trans h)))
  · rw [List.isPrefixOf_iff_prefix] at h1
    exact Bool.or_eq_true_iff.mpr (Or.inr ((List.isPrefixOf_iff_prefix).mpr (h1.trans h)))

theorem isHttpUrl_of_isTwitterLink {u : JStr} (h : isTwitterLink u = true) :
    isHttpUrl u = true := by
  unfold isTwitterLink at h
  split at h
  · cases h
  · simp only [startsWithAny, List.any_eq_true, List.mem_map, List.mem_cons] at h
    obtain ⟨p, hp, hpre⟩ := h
    simp only [List.mem_singleton, List.not_mem_nil, or_false] at hp
    rcases hp with ⟨q, hq, rfl⟩
    rcases hq with rfl|rfl|rfl|rfl|rfl|rfl|rfl|rfl|rfl|rfl|rfl|rfl|rfl|rfl|h0
    all_goals exact isHttpUrl_of_prefixes (by decide) hpre

theorem isHttpUrl_of_isYouTubeLink {u : JStr} (h : isYouTubeLink u = true) :
    isHttpUrl u = true := by
  unfold isYouTubeLink at h
  split at h
  · cases h
  · simp only [startsWithAny, List.any_eq_true, List.mem_map, List.mem_cons] at h
    obtain ⟨p, hp, hpre⟩ := h
    simp only [List.mem_singleton, List.not_mem_nil, or_false] at hp
    rcases hp with ⟨q, hq, rfl⟩
    rcases hq with rfl|rfl|rfl|rfl|rfl|rfl|rfl|rfl|rfl|rfl|h0
    all_goals exact isHttpUrl_of_prefixes (by decide) hpre

theorem isHttpUrl_of_isFacebookLink {u : JStr} (h : isFacebookLink u = true) :
    isHttpUrl u = true := by
  unfold isFacebookLink at h
  split at h
  · cases h
  · simp only [startsWithAny, List.any_eq_true, List.mem_map, List.mem_cons] at h
    obtain ⟨p, hp, hpre⟩ := h
    simp only [List.mem_singleton, List.not_mem_nil, or_false] at hp
    rcases hp with ⟨q, hq, rfl⟩
    rcases hq with rfl|rfl|rfl|rfl|rfl|rfl|rfl|rfl|rfl|rfl|h0
    all_goals exact isHttpUrl_of_prefixes (by decide) hpre

theorem isHttpUrl_of_isInstagramLink {u : JStr} (h : isInstagramLink u = true) :
    isHttpUrl u = true := by
  unfold isInstagramLink at h
  split at h
  · cases h
  · simp only [startsWithAny, List.any_eq_true, List.mem_map, List.mem_cons] at h
    obtain ⟨p, hp, hpre⟩ := h
    simp only [List.mem_singleton, List.not_mem_nil, or_false] at hp
    rcases hp with ⟨q, hq, rfl⟩
    rcases hq with rfl|rfl|rfl|rfl|h0
    all_goals exact isHttpUrl_of_prefixes (by decide) hpre

theorem transform_length_aux (gen : JStr → Option JSDate) :
    ∀ (rows : List MediaEventRow) (n : Nat),
      (List.filterMap (fun p => transformRow gen p.1 p.2) (List.enumFrom n rows)).length
        = (rows.filter (fun e => (parseDate gen e.date_announced).isOk)).length := by
  intro rows
  induction rows with
  | nil => intro n; rfl
  | cons x xs ih =>
    intro n
    simp only [List.enumFrom, List.filterMap_cons, List.filter_cons]
    cases h : parseDate gen x.date_announced with
    | error e =>
      have ht : transformRow gen n x = none := by simp [transformRow, h]
      simp [ht, h, Except.isOk, Except.toBool, ih]
    | ok d =>
      have ht : transformRow gen n x = some
          { id := eventId n
            start := d
            content := createEventContent x
            title := jsOr x.headline (tr "mediaEvent")
            party := x.party
            group := jsOr x.party "Unknown".toList
            className := "party-".toList ++ wsRunsToDash (jsToLower (jsOr x.party "unknown".toList))
            itemType := "box".toList } := by
        simp [transformRow, h]
      simp [ht, h, Except.isOk, Except.toBool, ih]

theorem transform_starts_aux (gen : JStr → Option JSDate) :
    ∀ (rows : List MediaEventRow) (n : Nat),
      (List.filterMap (fun p => transformRow gen p.1 p.2) (List.enumFrom n rows)).map
          TimelineItem.start
        = rows.filterMap (fun e => (parseDate gen e.date_announced).toOption) := by
  intro rows
  induction rows with
  | nil => intro n; rfl
  | cons x xs ih =>
    intro n
    simp only [List.enumFrom, List.filterMap_cons]
    cases h : parseDate gen x.date_announced with
    | error e =>
      have ht : transformRow gen n x = none := by simp [transformRow, h]
      simp [ht, h, Except.toOption, ih]
    | ok d =>
      have ht : (transformRow gen n x).isSome = true := by simp [transformRow, h]
      rw [Option.isSome_iff_exists] at ht
      obtain ⟨it, hit⟩ := ht
      have hstart : it.start = d := by
        simp [transformRow, h] at hit
        rw [← hit]
      simp [hit, h, Except.toOption, hstart, ih]

theorem transform_ids_aux (gen : JStr → Option JSDate) :
    ∀ (rows : List MediaEventRow) (n : Nat),
      (List.filterMap (fun p => transformRow gen p.1 p.2) (List.enumFrom n rows)).map
          TimelineItem.id
        = ((List.enumFrom n rows).filter
            (fun p => (parseDate gen p.2.date_announced).isOk)).map (fun p => eventId p.1) := by
  intro rows
  induction rows with
  | nil => intro n; rfl
  | cons x xs ih =>
    intro n
    simp only [List.enumFrom, List.filterMap_cons, List.filter_cons]
    cases h : parseDate gen x.date_announced with
    | error e =>
      have ht : transformRow gen n x = none := by simp [transformRow, h]
      simp [ht, h, Except.isOk, Except.toBool, ih]
    | ok d =>
      have ht : (transformRow gen n x).isSome = true := by simp [transformRow, h]
      rw [Option.isSome_iff_exists] at ht
      obtain ⟨it, hit⟩ := ht
      have hid : it.id = eventId n := by
        simp [transformRow, h] at hit
        rw [← hit]
      simp [hit, h, Except.isOk, Except.toBool, hid, ih]

theorem resolveFetch_isLoading_false {s : AppState} {p : Project}
    (hp : s.pending = some p) (outcome : FetchOutcome) (renderOk : Bool) :
    (resolveFetch s outcome renderOk).isLoading = false := by
  unfold resolveFetch
  rw [hp]
  cases outcome with
  | ok data =>
    by_cases hd : data.isEmpty
    · simp [hd]
    · by_cases hr : renderOk = true
      · simp [hd, hr]
      · simp [hd, hr]
  | err => rfl

/-- C1: selecting project "2" while project "1"'s fetch is in flight is
swallowed by the in-flight guard (line 104 of src/js/app.js): the second
selection leaves the state exactly as it was, and when the stale fetch for
project "1" resolves, it is project "1"'s rows that get rendered — not
project "2"'s, contradicting the supersession the spec requires. -/
theorem c1_newer_selection_ignored_stale_fetch_wins :
    selectProject (selectProject initialAppState (some projectOne)) (some projectTwo)
      = selectProject initialAppState (some projectOne)
    ∧ (resolveFetch
        (selectProject (selectProject initialAppState (some projectOne)) (some projectTwo))
        (.ok rowsForProjectOne) true).display
      = .rendered projectOne.project_id rowsForProjectOne
    ∧ projectOne.project_id ≠ projectTwo.project_id := by
  refine ⟨by decide, by decide, by decide⟩

/-- C2: the card formatter interpolates the headline into the card HTML
without HTML-escaping it: the raw `<script>` markup from a spreadsheet cell
appears verbatim in `createNewsCard`'s output, while its escaped form does
not appear at all (only the description goes through `escapeHtml`). -/
theorem c2_headline_reaches_card_unescaped :
    containsSub "<script>alert(1)</script>".toList (createNewsCard (some evilEvent)) = true
    ∧ containsSub "&lt;script&gt;".toList (createNewsCard (some evilEvent)) = false
    ∧ escapeHtml "<script>alert(1)</script>".toList
        = "&lt;script&gt;alert(1)&lt;/script&gt;".toList := by
  refine ⟨by decide, by decide, by decide⟩

/-- C4: the `MM/DD/YYYY` fallback of `parseDate` is unreachable — its regex is
identical to the `DD/MM/YYYY` branch's, and that branch throws whenever its
round-trip validation fails — so `"12/25/2020"`, an invalid day/month/year
but valid month/day/year date, is rejected instead of being parsed as
December 25, 2020. -/
theorem c4_mmddyyyy_fallback_unreachable :
    parseDate genNone (some "12/25/2020".toList)
      = .error ("Invalid date: 12/25/2020".toList)
    ∧ realCalendarDMY 25 12 2020 = true := by
  refine ⟨by rfl, by decide⟩

/-- C8: re-selecting the already-active project is a no-op — the guard returns
before any fetch is issued and the state is unchanged — and two consecutive
identical selections issue at most one fetch (the second call is always a
no-op on the state left by the first). -/
theorem c8_reselect_active_project_noop :
    (∀ (s : AppState) (cp p : Project), s.currentProject = some cp →
        cp.project_id = p.project_id → selectProject s (some p) = s)
    ∧ (∀ (s : AppState) (p : Project),
        selectProject (selectProject s (some p)) (some p) = selectProject s (some p)) := by
  constructor
  · intro s cp p h1 h2
    simp [selectProject, h1, h2]
  · intro s p
    by_cases hg : (s.isLoading ||
        (match s.currentProject with
         | some cp => cp.project_id == p.project_id
         | none => false)) = true
    · have hfix : selectProject s (some p) = s := by
        simp only [selectProject]
        rw [if_pos hg]
      rw [hfix]
      exact hfix
    · have hfix : selectProject s (some p) =
          { currentProject := some p, isLoading := true,
            display := .loading p, pending := some p } := by
        simp only [selectProject]
        rw [if_neg hg]
      rw [hfix]
      simp [selectProject]

/-- C10: every completed invocation of the selection handler ends with
`isLoading = false`: whenever a fetch is in flight its continuation — empty
data, successful render, failed render, or rejection — clears the flag (the
`finally` block), and a full handler run started from a non-loading state
likewise ends non-loading, on the success and the error path alike. -/
theorem c10_isLoading_reset_on_completion :
    (∀ (s : AppState) (p : Project) (outcome : FetchOutcome) (renderOk : Bool),
        s.pending = some p → (resolveFetch s outcome renderOk).isLoading = false)
    ∧ (∀ (s : AppState) (choice : Option Project) (outcome : FetchOutcome) (renderOk : Bool),
        s.isLoading = false →
        (resolveFetch (selectProject s choice) outcome renderOk).isLoading = false) := by
  constructor
  · intro s p outcome renderOk hp
    exact resolveFetch_isLoading_false hp outcome renderOk
  · intro s choice outcome renderOk hl
    cases choice with
    | none =>
      cases hp : s.pending with
      | some p =>
        exact resolveFetch_isLoading_false (s := selectProject s none) (by simpa [selectProject]) outcome renderOk
      | none =>
        have : resolveFetch (selectProject s none) outcome renderOk = selectProject s none := by
          unfold resolveFetch
          simp [selectProject, hp]
        rw [this]
        simpa [selectProject] using hl
    | some p =>
      by_cases hg : (s.isLoading ||
          (match s.currentProject with
           | some cp => cp.project_id == p.project_id
           | none => false)) = true
      · have hfix : selectProject s (some p) = s := by
          simp only [selectProject]
          rw [if_pos hg]
        rw [hfix]
        cases hp : s.pending with
        | some q => exact resolveFetch_isLoading_false hp outcome renderOk
        | none =>
          have : resolveFetch s outcome renderOk = s := by
            unfold resolveFetch
            rw [hp]
          rw [this, hl]
      · have hfix : selectProject s (some p) =
            { currentProject := some p, isLoading := true,
              display := .loading p, pending := some p } := by
          simp only [selectProject]
          rw [if_neg hg]
        rw [hfix]
        exact resolveFetch_isLoading_false rfl outcome renderOk

/-- C7: a non-empty directory-sheet row list whose first row lacks a required
column (`category`, `project_id` or `project_name`) makes the directory
loader's validation fail with a schema error that lists the missing column
in its `missing` set and names it in the thrown message, before any project
row is returned; and the outcome is the same whatever rows follow the first,
because only the first row is inspected. -/
theorem c7_missing_required_column_fails :
    ∀ (first : Row) (rest : List Row) (col : JStr),
      col ∈ requiredProjectColumns → rowHasKey first col = false →
      (∃ e : SchemaError, validateProjectListColumns (first :: rest) = .error e ∧
         col ∈ e.missing ∧ containsSub col e.message = true)
      ∧ (∀ rest' : List Row,
          validateProjectListColumns (first :: rest')
            = validateProjectListColumns (first :: rest)) := by
  intro first rest col hmem hnk
  have hcolmem : col ∈ requiredProjectColumns.filter (fun c => !rowHasKey first c) :=
    List.mem_filter.mpr ⟨hmem, by simp [hnk]⟩
  have hne : (requiredProjectColumns.filter (fun c => !rowHasKey first c)).isEmpty = false := by
    cases hL : requiredProjectColumns.filter (fun c => !rowHasKey first c) with
    | nil => rw [hL] at hcolmem; cases hcolmem
    | cons a t => rfl
  constructor
  · refine ⟨⟨requiredProjectColumns.filter (fun c => !rowHasKey first c),
      "Missing required columns in main sheet: ".toList ++
        joinComma (requiredProjectColumns.filter (fun c => !rowHasKey first c))⟩, ?_, hcolmem, ?_⟩
    · simp only [validateProjectListColumns]
      rw [hne]
      simp
    · exact containsSub_append_right (containsSub_joinComma_of_mem hcolmem)
  · intro rest'
    simp only [validateProjectListColumns]
    rw [hne]
    simp

/-- C7 witness: a directory first row holding only `project_id` and
`project_name` makes validation fail with an error whose missing set and
message name `category`. -/
theorem c7_missing_required_column_fails_witness :
    ∃ e : SchemaError, validateProjectListColumns [rowMissingCategory] = .error e ∧
      "category".toList ∈ e.missing ∧ containsSub "category".toList e.message = true :=
  (c7_missing_required_column_fails rowMissingCategory [] "category".toList
    (by decide) (by decide)).1

/-- C5: the timeline item mapper emits exactly one item per row whose date
parses and drops exactly the rows whose dates fail (never aborting the batch,
which its totality in this embedding witnesses): the item count equals the
count of rows with parseable dates, the start dates are exactly the parsed
dates of the surviving rows in input order, and the synthetic ids are the
original indices of the surviving rows in input order; on the concrete 5-row
batch whose third row's date is unparseable, the mapper yields exactly the
4 items for rows 1, 2, 4, 5 in order. -/
theorem c5_mapper_one_item_per_parsed_row :
    (∀ (gen : JStr → Option JSDate) (rows : List MediaEventRow),
      (transformToTimelineFormat gen rows).length
          = (rows.filter (fun e => (parseDate gen e.date_announced).isOk)).length
      ∧ (transformToTimelineFormat gen rows).map TimelineItem.start
          = rows.filterMap (fun e => (parseDate gen e.date_announced).toOption)
      ∧ (transformToTimelineFormat gen rows).map TimelineItem.id
          = (rows.enum.filter
              (fun p => (parseDate gen p.2.date_announced).isOk)).map (fun p => eventId p.1))
    ∧ (transformToTimelineFormat genNone fiveRowBatch).map TimelineItem.id
        = [eventId 0, eventId 1, eventId 3, eventId 4]
    ∧ (transformToTimelineFormat genNone fiveRowBatch).length = 4 := by
  have base : ∀ (gen : JStr → Option JSDate) (rows : List MediaEventRow),
      transformToTimelineFormat gen rows
        = List.filterMap (fun p => transformRow gen p.1 p.2) (List.enumFrom 0 rows) := by
    intro gen rows
    simp only [transformToTimelineFormat, List.enum]
    rw [List.filterMap_map]
    rfl
  refine ⟨?_, by decide, by decide⟩
  intro gen rows
  rw [base]
  exact ⟨transform_length_aux gen rows 0, transform_starts_aux gen rows 0,
    by rw [List.enum]; exact transform_ids_aux gen rows 0⟩

/-- C6: the media-type classifier is total over string-or-absent input (it is
a total function in this embedding, returning `unknown` for absent, empty or
unrecognized input) and classifies in order: Twitter/X URLs — including
`t.co` short links — take the Twitter tag first, then YouTube, Facebook and
Instagram; any remaining HTTP(S) URL matching no social-platform pattern is
`news`; non-HTTP, empty or absent input is `unknown`. -/
theorem c6_media_type_classification :
    (detectMediaType (some "https://x.com/user/status/1".toList) = .twitter
     ∧ detectMediaType (some "https://twitter.com/user/status/1".toList) = .twitter
     ∧ detectMediaType (some "https://t.co/abc".toList) = .twitter
     ∧ detectMediaType (some "https://www.youtube.com/watch".toList) = .youtube
     ∧ detectMediaType (some "https://www.facebook.com/page".toList) = .facebook
     ∧ detectMediaType (some "https://www.instagram.com/p/1".toList) = .instagram
     ∧ detectMediaType (some "https://example-news.com/a".toList) = .news
     ∧ detectMediaType (some "not a url".toList) = .unknown
     ∧ detectMediaType none = .unknown
     ∧ detectMediaType (some []) = .unknown)
    ∧ (∀ u : JStr, isTwitterLink (jsTrim (jsToLower u)) = true →
        detectMediaType (some u) = .twitter)
    ∧ (∀ u : JStr, u ≠ [] → isHttpUrl (jsTrim (jsToLower u)) = false →
        detectMediaType (some u) = .unknown)
    ∧ (∀ u : JStr,
        isTwitterLink (jsTrim (jsToLower u)) = false →
        isYouTubeLink (jsTrim (jsToLower u)) = false →
        isFacebookLink (jsTrim (jsToLower u)) = false →
        isInstagramLink (jsTrim (jsToLower u)) = false →
        isHttpUrl (jsTrim (jsToLower u)) = true →
        hasSocialDomain (jsTrim (jsToLower u)) = false →
        detectMediaType (some u) = .news) := by
  refine ⟨by decide, ?_, ?_, ?_⟩
  · intro u h
    have hu : u.isEmpty = false := by
      cases u with
      | nil => exact absurd h (by decide)
      | cons a t => rfl
    simp [detectMediaType, hu, h]
  · intro u hne hhttp
    have hu : u.isEmpty = false := by
      cases u with
      | nil => exact absurd rfl hne
      | cons a t => rfl
    have hT : isTwitterLink (jsTrim (jsToLower u)) = false := by
      cases hT0 : isTwitterLink (jsTrim (jsToLower u)) with
      | false => rfl
      | true => rw [isHttpUrl_of_isTwitterLink hT0] at hhttp; cases hhttp
    have hY : isYouTubeLink (jsTrim (jsToLower u)) = false := by
      cases hY0 : isYouTubeLink (jsTrim (jsToLower u)) with
      | false => rfl
      | true => rw [isHttpUrl_of_isYouTubeLink hY0] at hhttp; cases hhttp
    have hF : isFacebookLink (jsTrim (jsToLower u)) = false := by
      cases hF0 : isFacebookLink (jsTrim (jsToLower u)) with
      | false => rfl
      | true => rw [isHttpUrl_of_isFacebookLink hF0] at hhttp; cases hhttp
    have hI : isInstagramLink (jsTrim (jsToLower u)) = false := by
      cases hI0 : isInstagramLink (jsTrim (jsToLower u)) with
      | false => rfl
      | true => rw [isHttpUrl_of_isInstagramLink hI0] at hhttp; cases hhttp
    have hN : isNewsArticle (jsTrim (jsToLower u)) = false := by
      unfold isNewsArticle
      split
      · rfl
      · simp [hhttp]
    simp [detectMediaType, hu, hT, hY, hF, hI, hN]
  · intro u hT hY hF hI hH hS
    have hnuNonempty : jsTrim (jsToLower u) ≠ [] := by
      intro h0
      rw [h0] at hH
      cases hH
    have hu : u.isEmpty = false := by
      cases u with
      | nil => exact absurd (by rfl) hnuNonempty
      | cons a t => rfl
    have hnuE : (jsTrim (jsToLower u)).isEmpty = false := by
      cases hc : jsTrim (jsToLower u) with
      | nil => exact absurd hc hnuNonempty
      | cons a t => rfl
    have hN : isNewsArticle (jsTrim (jsToLower u)) = true := by
      unfold isNewsArticle
      rw [hnuE]
      simp [hH, hS]
    simp [detectMediaType, hu, hT, hY, hF, hI, hN]

/-- C6 witness: an ordinary HTTPS news URL satisfies the hypotheses of the
news conjunct and is classified `news`. -/
theorem c6_media_type_classification_witness :
    detectMediaType (some "https://example.org/articulo".toList) = .news :=
  c6_media_type_classification.2.2.2 "https://example.org/articulo".toList
    (by decide) (by decide) (by decide) (by decide) (by decide) (by decide)

theorem roundTrips_eq_realCalendar {d m y : Nat} (hy : 100 ≤ y) :
    jsDateRoundTrips (y : Int) ((m : Int) - 1) (d : Int) = realCalendarDMY d m y := by
  rw [Bool.eq_iff_iff]
  simp only [jsDateRoundTrips, realCalendarDMY, Bool.and_eq_true, Bool.not_eq_true',
    Bool.and_eq_false_iff, decide_eq_true_eq, decide_eq_false_iff_not]
  omega

/-- C3 (amended): for every text matching the `D/M/YYYY` shape whose year
component is at least 0100, the parser succeeds exactly when the components
form a real calendar date — rejecting day overflow such as `31/02/2020`
instead of rolling it over — and on success the returned date carries exactly
the input components (`getMonth`-style 0-indexed month `m - 1`, so calendar
month `m`); otherwise it throws `Invalid date`. The amendment excludes years
0000–0099, which the JavaScript `Date(y, m, d)` constructor shifts to
1900 + y, making the parser reject them even when they denote real dates. -/
theorem c3_dmy_round_trip_amended :
    ∀ (gen : JStr → Option JSDate) (raw : JStr) (d m y : Nat),
      matchDMY (jsTrim raw) = some (d, m, y) → 100 ≤ y →
      ((parseDate gen (some raw) = .ok ⟨(y : Int), (m : Int) - 1, (d : Int)⟩)
         ↔ realCalendarDMY d m y = true)
      ∧ (realCalendarDMY d m y = false →
          parseDate gen (some raw) = .error ("Invalid date: ".toList ++ raw)) := by
  intro gen raw d m y hm hy
  have hrawE : raw.isEmpty = false := by
    cases raw with
    | nil => rw [show jsTrim [] = [] from rfl] at hm; cases hm
    | cons a t => rfl
  have hred : parseDate gen (some raw) =
      (if jsDateRoundTrips (y : Int) ((m : Int) - 1) (d : Int) then
         .ok ⟨(y : Int), (m : Int) - 1, (d : Int)⟩
       else .error ("Invalid date: ".toList ++ raw)) := by
    simp only [parseDate, hrawE, Bool.false_eq_true, if_false, hm]
  rw [hred, roundTrips_eq_realCalendar hy]
  cases hrc : realCalendarDMY d m y with
  | true =>
    constructor
    · simp
    · intro h; cases h
  | false =>
    constructor
    · simp
    · intro _; simp

/-- C3 witness: `"15/03/2023"` parses to March 15, 2023 (`getMonth() = 2`). -/
theorem c3_dmy_round_trip_witness :
    parseDate genNone (some "15/03/2023".toList) = .ok ⟨2023, 2, 15⟩ :=
  (c3_dmy_round_trip_amended genNone "15/03/2023".toList 15 3 2023
    (by decide) (by decide)).1.mpr (by decide)

/-- C3 counterexample: `"1/1/0099"` is a four-digit-year `D/M/YYYY` text whose
components form a real calendar date (January 1, year 99), yet the parser
rejects it — `new Date(99, 0, 1)` reports year 1999, so the round-trip check
fails for every year below 0100 — refuting the claim that the parser succeeds
exactly on real calendar dates. -/
theorem c3_counterexample_low_year :
    realCalendarDMY 1 1 99 = true
    ∧ parseDate genNone (some "1/1/0099".toList)
        = .error ("Invalid date: 1/1/0099".toList) := by
  refine ⟨by decide, by rfl⟩

theorem lastPos_take_bound {c : Char} {s : JStr} {n i : Nat}
    (h : lastPos c (s.take (n + 1)) = some i) : i ≤ n ∧ s.get? i = some c := by
  have hg := lastPos_get h
  have hlt : i < (s.take (n + 1)).length := by
    by_contra hnot
    push_neg at hnot
    rw [List.get?_eq_none.mpr hnot] at hg
    cases hg
  have hle : (s.take (n + 1)).length ≤ n + 1 := List.length_take_le _ _
  have hin : i < n + 1 := lt_of_lt_of_le hlt hle
  refine ⟨Nat.lt_succ_iff.mp hin, ?_⟩
  rw [← List.get?_take hin]
  exact hg

/-- The unfolded form of `formatDescription` on a present description. -/
theorem formatDescription_some_eq (d : JStr) :
    formatDescription (some d) =
      (if (jsTrim d).isEmpty then []
       else
         newlinesToBr (escapeHtml
           (if (jsTrim d).length > 200 then
              (if jsLastIndexOf (jsTrim d) '.' 200 > 140 then
                 (jsTrim d).take ((jsLastIndexOf (jsTrim d) '.' 200).toNat + 1)
               else
                 ((jsTrim d).take
                    (if jsLastIndexOf (jsTrim d) ' ' 200 > 0 then
                       (jsLastIndexOf (jsTrim d) ' ' 200).toNat
                     else 200)) ++ "...".toList)
            else jsTrim d))) := rfl

theorem space_branch_cases (clean : JStr) :
    (∃ j : Nat, 0 < j ∧ j ≤ 200 ∧ clean.get? j = some ' ' ∧
       (clean.take (if jsLastIndexOf clean ' ' 200 > 0 then
           (jsLastIndexOf clean ' ' 200).toNat else 200)) = clean.take j)
    ∨ ((∀ k : Nat, 0 < k → k ≤ 200 → clean.get? k ≠ some ' ') ∧
       (clean.take (if jsLastIndexOf clean ' ' 200 > 0 then
           (jsLastIndexOf clean ' ' 200).toNat else 200)) = clean.take 200) := by
  cases hls : lastPos ' ' (clean.take (200 + 1)) with
  | some j =>
    have hlsv : jsLastIndexOf clean ' ' 200 = (j : Int) := by
      unfold jsLastIndexOf
      rw [hls]
    obtain ⟨hj200, hjget⟩ := lastPos_take_bound hls
    by_cases hj : ((j : Int) > 0)
    · left
      refine ⟨j, by exact_mod_cast hj, hj200, hjget, ?_⟩
      rw [hlsv, if_pos hj]
      simp
    · right
      have hj0 : j = 0 := by omega
      constructor
      · intro k hk0 hk200 hbad
        have hkin : k < 200 + 1 := by omega
        have := lastPos_max hls k (by omega)
        rw [List.get?_take hkin] at this
        exact this hbad
      · rw [hlsv, if_neg hj]
  | none =>
    have hlsv : jsLastIndexOf clean ' ' 200 = -1 := by
      unfold jsLastIndexOf
      rw [hls]
    right
    constructor
    · intro k hk0 hk200 hbad
      have hkin : k < 200 + 1 := by omega
      have := lastPos_none_aux hls k
      rw [List.get?_take hkin] at this
      exact this hbad
    · rw [hlsv]
      norm_num

/-- C9 (amended): a trimmed description of at most 200 characters passes
through whole (escaped, line breaks to `<br>`); a longer one is cut after a
period found at an index in 141..200, or before a space at an index in
1..200 with `...` appended, or — when no space occurs at indices 1..200 —
hard-cut at exactly 200 characters with `...` appended, which can fall in
the middle of a word. The amendment replaces the claim's "never mid-word"
with this last, boundary-less case. -/
theorem c9_truncation_amended :
    ∀ d : JStr,
      ((jsTrim d).length ≤ 200 →
        formatDescription (some d) = newlinesToBr (escapeHtml (jsTrim d)))
      ∧ ((jsTrim d).length > 200 →
        (∃ i : Nat, 140 < i ∧ i ≤ 200 ∧ (jsTrim d).get? i = some '.' ∧
           formatDescription (some d)
             = newlinesToBr (escapeHtml ((jsTrim d).take (i + 1))))
        ∨ (∃ j : Nat, 0 < j ∧ j ≤ 200 ∧ (jsTrim d).get? j = some ' ' ∧
           formatDescription (some d)
             = newlinesToBr (escapeHtml ((jsTrim d).take j ++ "...".toList)))
        ∨ ((∀ k : Nat, 0 < k → k ≤ 200 → (jsTrim d).get? k ≠ some ' ') ∧
           formatDescription (some d)
             = newlinesToBr (escapeHtml ((jsTrim d).take 200 ++ "...".toList)))) := by
  intro d
  constructor
  · intro hlen
    rw [formatDescription_some_eq]
    by_cases he : (jsTrim d).isEmpty = true
    · rw [if_pos he]
      have hnil : jsTrim d = [] := by simpa [List.isEmpty_iff] using he
      rw [hnil]
      rfl
    · rw [if_neg he, if_neg (by omega)]
  · intro hlen
    have he : ¬((jsTrim d).isEmpty = true) := by
      intro h
      have hnil : jsTrim d = [] := by simpa [List.isEmpty_iff] using h
      rw [hnil] at hlen
      simp at hlen
    rw [formatDescription_some_eq, if_neg he, if_pos hlen]
    cases hlp : lastPos '.' ((jsTrim d).take (200 + 1)) with
    | some i =>
      have hta : jsLastIndexOf (jsTrim d) '.' 200 = (i : Int) := by
        unfold jsLastIndexOf
        rw [hlp]
      obtain ⟨hi200, higet⟩ := lastPos_take_bound hlp
      by_cases hi : ((i : Int) > 140)
      · left
        refine ⟨i, by exact_mod_cast hi, hi200, higet, ?_⟩
        rw [hta, if_pos hi]
        simp
      · rw [hta, if_neg hi]
        rcases space_branch_cases (jsTrim d) with ⟨j, hj0, hj200, hjget, hjeq⟩ | ⟨hnone, heq⟩
        · right; left
          exact ⟨j, hj0, hj200, hjget, by rw [hjeq]⟩
        · right; right
          exact ⟨hnone, by rw [heq]⟩
    | none =>
      have hta : jsLastIndexOf (jsTrim d) '.' 200 = -1 := by
        unfold jsLastIndexOf
        rw [hlp]
      rw [hta, if_neg (by norm_num)]
      rcases space_branch_cases (jsTrim d) with ⟨j, hj0, hj200, hjget, hjeq⟩ | ⟨hnone, heq⟩
      · right; left
        exact ⟨j, hj0, hj200, hjget, by rw [hjeq]⟩
      · right; right
        exact ⟨hnone, by rw [heq]⟩

/-- C9 witness: a short description passes through whole. -/
theorem c9_truncation_amended_witness :
    formatDescription (some "hola que tal".toList)
      = newlinesToBr (escapeHtml (jsTrim "hola que tal".toList)) :=
  (c9_truncation_amended "hola que tal".toList).1 (by decide)

/-- C9 counterexample: a 250-character single word — no space or period
anywhere, hence no sentence or word boundary — is truncated at exactly 200
characters, in the middle of the word, rather than being left whole; this
refutes "never in the middle of a word, including when the text contains no
space or period within the first 200 characters". -/
theorem c9_counterexample_hard_cut_mid_word :
    formatDescription (some (List.replicate 250 'a'))
      = List.replicate 200 'a' ++ "...".toList
    ∧ (List.replicate 250 'a').all (fun c => !(c == ' ') && !(c == '.')) = true
    ∧ formatDescription (some (List.replicate 250 'a'))
        ≠ newlinesToBr (escapeHtml (List.replicate 250 'a')) := by
  refine ⟨by decide, by decide, by decide⟩

/-- C8 witness: with project "1" active and not loading, selecting project
"1" again leaves the state untouched. -/
theorem c8_reselect_active_project_noop_witness :
    selectProject stateWithProjectOne (some projectOne) = stateWithProjectOne :=
  c8_reselect_active_project_noop.1 stateWithProjectOne projectOne projectOne rfl rfl

/-- C10 witness: a selection whose fetch rejects still ends with the loading
flag cleared. -/
theorem c10_isLoading_reset_on_completion_witness :
    (resolveFetch (selectProject initialAppState (some projectOne)) .err true).isLoading
      = false :=
  c10_isLoading_reset_on_completion.2 initialAppState (some projectOne) .err true rfl
